import Mathlib

/-!
Verification development for the recruitment-tracking web application in
`src/app.py`.  The file gives a shallow embedding of the application's data
model and of its five core operations — schema initialisation (`init_db`),
spreadsheet import (`load_data_to_db`), the filter query (`api_companies`),
the suitability mutation (`api_mark`) and the export of the suitable subset
(`api_export_suitable`) — and proves or refutes the specification claims
about them.

Modelling conventions:
* A stored row (`Posting`) carries the fourteen spreadsheet-derived string
  fields plus the SQLite-assigned `id` and the `is_suitable` marker.
  AUTOINCREMENT ids are modelled by the `nextId` counter of `DB`; the rows
  list is kept in insertion order, which is ascending-id order, so a SQL
  `ORDER BY id` returns the rows in stored order.
* Spreadsheet cells are modelled as strings; a pandas data row is a list of
  cells aligned with the (renamed) header list, and `row.get(col, dflt)`
  becomes `rowGet`.
* Python `str.strip` / `str.lower` are embedded as `strStrip` / `strLower`
  over the character list of a string (Lean's byte-position based
  `String.trim`/`String.toLower` do not reduce inside the kernel; these
  character-list versions compute the same strings on the inputs used here).
* Fallible effects (missing file, unparsable spreadsheet, a per-row INSERT
  exception) are made explicit: the file system / parser outcome is the
  `FileRead` argument, and per-row insertion failures are an oracle
  `fails : Nat → Bool` indexed by the 0-based row position.
-/

namespace Recruitment

/-- Embedding of Python `str.lower` (character-wise ASCII lowering, which
agrees with Python on the ASCII and CJK strings appearing in the program). -/
def strLower (s : String) : String := ⟨s.data.map Char.toLower⟩

/-- Embedding of Python `str.strip`: drop whitespace from both ends. -/
def strStrip (s : String) : String :=
  ⟨((s.data.dropWhile Char.isWhitespace).reverse.dropWhile Char.isWhitespace).reverse⟩

/-- The fourteen spreadsheet-derived columns of the `companies` table, in the
order of the INSERT statement of `load_data_to_db` (src/app.py lines 199-206). -/
structure Fields where
  serial_number : String
  company_name : String
  batch : String
  company_type : String
  industry : String
  recruitment_target : String
  positions : String
  application_status : String
  location : String
  update_time : String
  deadline : String
  official_announcement : String
  application_method : String
  referral_code : String
deriving Repr, DecidableEq

/-- A stored row of the `companies` table: the fourteen text fields plus the
AUTOINCREMENT primary key `id` and the `is_suitable` INTEGER marker
(src/app.py lines 93-113). `created_at` plays no role in any operation and is
not modelled. -/
structure Posting extends Fields where
  id : Nat
  is_suitable : Int
deriving Repr, DecidableEq

/-- The database state: the stored rows (in insertion = ascending-id order)
and the next AUTOINCREMENT id.  `DELETE FROM companies` does not reset the
AUTOINCREMENT sequence, so `nextId` survives a truncation. -/
structure DB where
  rows : List Posting
  nextId : Nat
deriving Repr, DecidableEq

/-- A fresh database: no rows, first assigned id is 1 (SQLite AUTOINCREMENT). -/
def emptyDB : DB := { rows := [], nextId := 1 }

/-- The fixed canonical-header → internal-field mapping of `load_data_to_db`
(src/app.py lines 135-150), in source order. -/
def columnMapping : List (String × String) :=
  [("序号", "serial_number"),
   ("公司名称", "company_name"),
   ("批次", "batch"),
   ("企业性质", "company_type"),
   ("行业大类", "industry"),
   ("招聘对象", "recruitment_target"),
   ("招聘岗位", "positions"),
   ("网申状态", "application_status"),
   ("工作地点", "location"),
   ("更新时间", "update_time"),
   ("截止时间", "deadline"),
   ("官方公告", "official_announcement"),
   ("投递方式", "application_method"),
   ("内推码/备注", "referral_code")]

/-- Header matching of `load_data_to_db` (src/app.py lines 156-166): given the
stripped spreadsheet headers, a canonical name matches first by exact
membership, otherwise by the first case-insensitive hit. -/
def findKey (cols : List String) (canon : String) : Option String :=
  if canon ∈ cols then some canon
  else cols.find? (fun ec => strLower ec == strLower canon)

/-- The `mapped_columns` dictionary built by the loop at src/app.py lines
156-168, generalised over the mapping list: one entry `(key, dbCol)` per
canonical column that found a match.  The keys are pairwise distinct for the
fixed `columnMapping` (lemma `assocLookup_mappedAux` below relies only on the
case-insensitive distinctness of the canonical names), so an
association-list lookup agrees with the Python dict. -/
def mappedAux (M : List (String × String)) (cols : List String) : List (String × String) :=
  M.filterMap (fun p => (findKey cols p.1).map (fun k => (k, p.2)))

/-- `mapped_columns` for the program's fixed mapping. -/
def mappedColumns (cols : List String) : List (String × String) :=
  mappedAux columnMapping cols

/-- First-match association lookup (Python dict access for distinct keys). -/
def assocLookup : List (String × String) → String → Option String
  | [], _ => Option.none
  | (k, v) :: rest, key => if k == key then some v else assocLookup rest key

/-- `df.rename(columns=mapped_columns)` applied to one raw column name: a
column whose (raw, unstripped) name is a key of the dictionary is renamed,
every other column keeps its name (src/app.py line 171). -/
def renameCol (m : List (String × String)) (h : String) : String :=
  match assocLookup m h with
  | some v => v
  | Option.none => h

/-- The DataFrame's column names after the rename step.  Note the faithful
asymmetry of the source: the match keys are computed from the *stripped*
headers (line 153) but the rename is applied to the *raw* headers
(line 171). -/
def renamedHeader (rawHdr : List String) : List String :=
  rawHdr.map (renameCol (mappedColumns (rawHdr.map strStrip)))

/-- `row.get(col, dflt)` on a pandas row whose cells are aligned with the
(renamed) header list: the cell under the first column named `col`, or the
default when no column has that name. -/
def rowGet : List String → List String → String → String → String
  | [], _, _, dflt => dflt
  | h :: hs, cells, col, dflt =>
    if h == col then cells.headD dflt
    else rowGet hs cells.tail col dflt

/-- The insertion tuple of src/app.py lines 182-197: every field defaults to
the empty string when its (renamed) column is absent, except `serial_number`,
which defaults to the 1-based row position (`idx` is the 0-based position). -/
def buildInsert (hdr : List String) (cells : List String) (idx : Nat) : Fields :=
  { serial_number := rowGet hdr cells "serial_number" (toString (idx + 1)),
    company_name := rowGet hdr cells "company_name" "",
    batch := rowGet hdr cells "batch" "",
    company_type := rowGet hdr cells "company_type" "",
    industry := rowGet hdr cells "industry" "",
    recruitment_target := rowGet hdr cells "recruitment_target" "",
    positions := rowGet hdr cells "positions" "",
    application_status := rowGet hdr cells "application_status" "",
    location := rowGet hdr cells "location" "",
    update_time := rowGet hdr cells "update_time" "",
    deadline := rowGet hdr cells "deadline" "",
    official_announcement := rowGet hdr cells "official_announcement" "",
    application_method := rowGet hdr cells "application_method" "",
    referral_code := rowGet hdr cells "referral_code" "" }

/-- Executing the INSERT of src/app.py lines 199-206: the row is appended
with the next AUTOINCREMENT id and the `is_suitable` column default 0. -/
def insertRow (db : DB) (f : Fields) : DB :=
  { rows := db.rows ++ [{ toFields := f, id := db.nextId, is_suitable := 0 }],
    nextId := db.nextId + 1 }

/-- The `for idx, row in df.iterrows()` loop of src/app.py lines 179-212:
rows are inserted one at a time; a row whose insertion raises (oracle
`fails`) is counted and skipped without aborting the rest.  Returns the
database after the loop and the final `error_count`. -/
def processRows (hdr : List String) : List (List String) → Nat → DB → Nat → (Nat → Bool) → DB × Nat
  | [], _, db, errs, _ => (db, errs)
  | cells :: rest, idx, db, errs, fails =>
    if fails idx then processRows hdr rest (idx + 1) db (errs + 1) fails
    else processRows hdr rest (idx + 1) (insertRow db (buildInsert hdr cells idx)) errs fails

/-- A parsed spreadsheet: the raw header row and the data rows (cell lists
aligned with the header). -/
structure Sheet where
  header : List String
  rows : List (List String)
deriving Repr, DecidableEq

/-- Outcome of the file-reading prefix of `load_data_to_db` (src/app.py lines
122-132): the path does not exist, both spreadsheet engines raised, or a
DataFrame was produced. -/
inductive FileRead where
  | missing (path : String)
  | unparsable (err : String)
  | parsed (s : Sheet)
deriving Repr, DecidableEq

/-- `load_data_to_db` (src/app.py lines 119-221): returns the
`(success, message)` pair of the source together with the resulting database
state.  On a parsed sheet it renames the columns, truncates the table
(`DELETE FROM companies`, which keeps the AUTOINCREMENT counter), runs the
row loop and commits; per-row failures only affect the count and message. -/
def load_data_to_db (fr : FileRead) (db : DB) (fails : Nat → Bool) : (Bool × String) × DB :=
  match fr with
  | FileRead.missing p => ((false, "文件不存在: " ++ p), db)
  | FileRead.unparsable e => ((false, "无法读取Excel文件: " ++ e), db)
  | FileRead.parsed s =>
    let hdr := renamedHeader s.header
    let cleared : DB := { rows := [], nextId := db.nextId }
    let res := processRows hdr s.rows 0 cleared 0 fails
    if 0 < res.2 then
      ((true, "导入完成，共 " ++ toString s.rows.length ++ " 条数据，其中 "
          ++ toString res.2 ++ " 条数据导入失败"), res.1)
    else
      ((true, "成功导入 " ++ toString s.rows.length ++ " 条数据"), res.1)

/-- The rows an import derives from a sheet when every insertion succeeds:
one `Posting` per data row, ids assigned consecutively from `startId`,
`is_suitable` 0.  Used to state what "the rows derived from" a spreadsheet
are, independently of the loop above. -/
def importedRows (hdr : List String) : List (List String) → Nat → Nat → List Posting
  | [], _, _ => []
  | cells :: rest, idx, startId =>
    { toFields := buildInsert hdr cells idx, id := startId, is_suitable := 0 }
      :: importedRows hdr rest (idx + 1) (startId + 1)

/-- The five filter parameters of `GET /api/companies` (src/app.py lines
250-254); `Option.none` models an absent query parameter. -/
structure Filters where
  industry : Option String
  company_type : Option String
  location : Option String
  qiyexing : Option String
  jie : Option String
deriving Repr, DecidableEq

/-- One filter clause of `api_companies` (src/app.py lines 259-273): the
source guards each clause with `if value and value != 'all'`, so an absent
parameter, the empty string (Python falsy) and the sentinel `"all"` all
impose no constraint; any other value demands field equality. -/
def fieldPass (v : Option String) (field : String) : Bool :=
  match v with
  | Option.none => true
  | some s => if s != "" && s != "all" then field == s else true

/-- `GET /api/companies` (src/app.py lines 248-276): the conjunction of the
five clauses over the stored rows; `ORDER BY id` returns the rows in stored
order (see the `DB` convention above). -/
def api_companies (f : Filters) (db : DB) : List Posting :=
  db.rows.filter (fun p =>
    fieldPass f.industry p.industry &&
    fieldPass f.company_type p.company_type &&
    fieldPass f.location p.location &&
    fieldPass f.qiyexing p.recruitment_target &&
    fieldPass f.jie p.deadline)

/-- A Python/JSON value as far as `api_mark` inspects one: enough to decide
truthiness and to bind as an SQL parameter.  `pyNone` models both an absent
`id`/`suitable` key (`data.get` returns `None`) and an explicit JSON null. -/
inductive PyVal where
  | pyNone
  | pyBool (b : Bool)
  | pyInt (n : Int)
  | pyStr (s : String)
deriving Repr, DecidableEq

/-- Python truthiness for the modelled values. -/
def PyVal.truthy : PyVal → Bool
  | PyVal.pyNone => false
  | PyVal.pyBool b => b
  | PyVal.pyInt n => n != 0
  | PyVal.pyStr s => s != ""

/-- The JSON body of `POST /api/mark` as read at src/app.py lines 286-288. -/
structure MarkRequest where
  id : PyVal
  suitable : PyVal
deriving Repr, DecidableEq

/-- SQLite evaluation of `WHERE id = ?` for a bound Python value against the
INTEGER-affinity `id` column: integers (and booleans, which bind as 0/1)
compare numerically, numeric-looking text is converted by column affinity,
NULL matches nothing. -/
def idMatches (v : PyVal) (rowId : Nat) : Bool :=
  match v with
  | PyVal.pyNone => false
  | PyVal.pyBool b => (if b then (1 : Int) else 0) == (rowId : Int)
  | PyVal.pyInt n => n == (rowId : Int)
  | PyVal.pyStr s => s.toInt? == some (rowId : Int)

/-- `POST /api/mark` (src/app.py lines 284-297): a falsy `id` is rejected
with the missing-id error before any database access; otherwise every row
whose id matches has `is_suitable` set to 1 (truthy `suitable`) or 2, and the
handler reports success without checking that any row was affected. -/
def api_mark (req : MarkRequest) (db : DB) : (String × String) × DB :=
  if !req.id.truthy then (("error", "缺少公司ID"), db)
  else
    let mark_value : Int := if req.suitable.truthy then 1 else 2
    (("success", "标记成功"),
     { rows := db.rows.map (fun p =>
         if idMatches req.id p.id then { p with is_suitable := mark_value } else p),
       nextId := db.nextId })

/-- The fixed header row written by `GET /api/export-suitable`
(src/app.py lines 318-319). -/
def exportHeaders : List String :=
  ["序号", "公司名称", "批次", "企业性质", "行业大类",
   "招聘对象", "招聘岗位", "网申状态", "工作地点", "截止时间", "投递方式", "内推码/备注"]

/-- One exported data row (src/app.py lines 324-337). -/
def exportRow (p : Posting) : List String :=
  [p.serial_number, p.company_name, p.batch, p.company_type, p.industry,
   p.recruitment_target, p.positions, p.application_status, p.location,
   p.deadline, p.application_method, p.referral_code]

/-- `SELECT * FROM companies WHERE is_suitable = 1 ORDER BY id`
(src/app.py line 307). -/
def suitableRows (db : DB) : List Posting :=
  db.rows.filter (fun p => p.is_suitable == 1)

/-- `GET /api/export-suitable` (src/app.py lines 305-347): a client error
when no posting is marked suitable, otherwise the worksheet contents — the
fixed header row followed by one data row per suitable posting. -/
def api_export_suitable (db : DB) : Except String (List (List String)) :=
  let companies := suitableRows db
  if companies.isEmpty then Except.error "没有合适的公司可导出"
  else Except.ok (exportHeaders :: companies.map exportRow)

/-- A value stored in a schema-level cell of the `companies` table (used only
by the schema-manager model, where row contents are opaque to `init_db`). -/
inductive Cell where
  | null
  | intv (n : Int)
  | text (s : String)
deriving Repr, DecidableEq

/-- A concrete SQLite table: its columns (name and declared type, in order)
and its rows, each a cell list aligned with the columns. -/
structure Table where
  cols : List (String × String)
  rows : List (List Cell)
deriving Repr, DecidableEq

/-- The `required_columns` list of `init_db` (src/app.py lines 51-68). -/
def requiredColumns : List (String × String) :=
  [("serial_number", "TEXT"),
   ("company_name", "TEXT"),
   ("batch", "TEXT"),
   ("company_type", "TEXT"),
   ("industry", "TEXT"),
   ("recruitment_target", "TEXT"),
   ("positions", "TEXT"),
   ("application_status", "TEXT"),
   ("location", "TEXT"),
   ("update_time", "TEXT"),
   ("deadline", "TEXT"),
   ("official_announcement", "TEXT"),
   ("application_method", "TEXT"),
   ("referral_code", "TEXT"),
   ("is_suitable", "INTEGER DEFAULT 0"),
   ("created_at", "TIMESTAMP DEFAULT CURRENT_TIMESTAMP")]

/-- SQLite rejects `ALTER TABLE … ADD COLUMN` when the declared default is
CURRENT_TIME/CURRENT_DATE/CURRENT_TIMESTAMP or a parenthesized expression
("Cannot add a column with non-constant default").  Among the repository's
declared column types only the `created_at` type falls under this rule. -/
def nonConstDefault (ty : String) : Bool :=
  ty == "TIMESTAMP DEFAULT CURRENT_TIMESTAMP"

/-- The value SQLite stores in existing rows for a freshly added column:
the declared constant default, else NULL. -/
def defaultCell (ty : String) : Cell :=
  if ty == "INTEGER DEFAULT 0" then Cell.intv 0 else Cell.null

/-- A successful `ALTER TABLE companies ADD COLUMN name type`: the column is
appended and every existing row is extended with the column's default. -/
def addColumn (t : Table) (c : String × String) : Table :=
  { cols := t.cols ++ [c], rows := t.rows.map (fun r => r ++ [defaultCell c.2]) }

/-- One iteration of the column-healing loop of `init_db` (src/app.py lines
84-90): columns already listed by the initial `PRAGMA table_info` snapshot
(`existing`) are skipped; an ALTER that SQLite rejects raises, is caught and
logged, and leaves the table unchanged. -/
def addMissing (existing : List String) (t : Table) (c : String × String) : Table :=
  if existing.contains c.1 then t
  else if nonConstDefault c.2 then t
  else addColumn t c

/-- `init_db` (src/app.py lines 49-116): when the `companies` table exists,
heal it column by column against the `PRAGMA table_info` snapshot and leave
the trailing `CREATE TABLE IF NOT EXISTS` a no-op; when it does not exist,
create it with the full canonical column set and no rows. -/
def init_db : Option Table → Table
  | some t => requiredColumns.foldl (addMissing (t.cols.map Prod.fst)) t
  | Option.none =>
    { cols := ("id", "INTEGER PRIMARY KEY AUTOINCREMENT") :: requiredColumns, rows := [] }

/-- The database states reachable through the application's mutating
operations, starting from a fresh table: any sequence of imports (with any
file outcome and any row-failure pattern) and suitability marks.  The query
routes do not mutate. -/
inductive Reachable : DB → Prop where
  | start : Reachable emptyDB
  | imprt (fr : FileRead) (fails : Nat → Bool) {db : DB} :
      Reachable db → Reachable (load_data_to_db fr db fails).2
  | mark (req : MarkRequest) {db : DB} :
      Reachable db → Reachable (api_mark req db).2

/-- Decidable form of the suitability invariant of claim C9. -/
def suitOK (db : DB) : Bool :=
  db.rows.all (fun p => p.is_suitable == 0 || p.is_suitable == 1 || p.is_suitable == 2)

/-- Projection of an insertion tuple by internal field name, to state
per-field properties uniformly over `columnMapping`. -/
def fieldGet (f : Fields) : String → String
  | "serial_number" => f.serial_number
  | "company_name" => f.company_name
  | "batch" => f.batch
  | "company_type" => f.company_type
  | "industry" => f.industry
  | "recruitment_target" => f.recruitment_target
  | "positions" => f.positions
  | "application_status" => f.application_status
  | "location" => f.location
  | "update_time" => f.update_time
  | "deadline" => f.deadline
  | "official_announcement" => f.official_announcement
  | "application_method" => f.application_method
  | "referral_code" => f.referral_code
  | _ => ""

/-- The per-field default of the insertion tuple (src/app.py lines 182-197):
the 1-based row position for `serial_number`, the empty string otherwise. -/
def defaultFor (dbCol : String) (idx : Nat) : String :=
  if dbCol == "serial_number" then toString (idx + 1) else ""

/-- Modelled from the words of claim C4: a parameter that is *present and not
equal to "all"* imposes the equality predicate (the claim's reading, which—
unlike the code—includes a present empty-string parameter). -/
def claimConstraint (v : Option String) (field : String) : Prop :=
  ∀ s, v = some s → s ≠ "all" → field = s

/-- Modelled from the amended claim C4: a parameter imposes the equality
predicate only when present, non-empty and different from "all". -/
def amendedConstraint (v : Option String) (field : String) : Prop :=
  ∀ s, v = some s → s ≠ "" → s ≠ "all" → field = s

/-- An insertion tuple with every field empty, for concrete instances. -/
def blankFields : Fields :=
  { serial_number := "", company_name := "", batch := "", company_type := "",
    industry := "", recruitment_target := "", positions := "",
    application_status := "", location := "", update_time := "", deadline := "",
    official_announcement := "", application_method := "", referral_code := "" }

/-- Concrete posting for the C4 instances: industry "x", id 1, unmarked. -/
def c4Posting : Posting :=
  { toFields := { blankFields with industry := "x" }, id := 1, is_suitable := 0 }

/-- Concrete single-row store for the C4 instances. -/
def c4DB : DB := { rows := [c4Posting], nextId := 2 }

/-- Concrete filter set for the C4 instances: a present empty-string
`industry` parameter, all others absent. -/
def c4Filters : Filters :=
  { industry := some "", company_type := Option.none, location := Option.none,
    qiyexing := Option.none, jie := Option.none }

/-- Concrete store for the C5 witness: one unmarked posting with id 5. -/
def c5DB : DB := { rows := [{ toFields := blankFields, id := 5, is_suitable := 0 }], nextId := 6 }

/-- Concrete store for the C6 witness: one posting marked suitable. -/
def c6DB : DB := { rows := [{ toFields := blankFields, id := 1, is_suitable := 1 }], nextId := 2 }

/-- Concrete spreadsheet A for the C2 witness. -/
def c2SheetA : Sheet := { header := ["公司名称"], rows := [["A1"]] }

/-- Concrete spreadsheet B for the C2 witness. -/
def c2SheetB : Sheet := { header := ["公司名称"], rows := [["B1"], ["B2"]] }

/-- Concrete spreadsheet for the C3 witness. -/
def c3Sheet : Sheet := { header := ["公司名称"], rows := [["A"], ["B"]] }

/-- Concrete spreadsheet for the C1 counterexample: its single header carries
a leading space, so it matches the canonical "公司名称" after stripping but the
rename step misses it. -/
def c1Sheet : Sheet := { header := [" 公司名称"], rows := [["Acme"]] }

/-- Concrete table for the C8 counterexample: every canonical column except
the last one, `created_at`, is present. -/
def c8Table : Table :=
  { cols := ("id", "INTEGER PRIMARY KEY AUTOINCREMENT") :: requiredColumns.dropLast,
    rows := [] }

/-- Concrete reachable store for the C9 witness: one import followed by one
suitability mark. -/
def c9DB : DB :=
  (api_mark { id := PyVal.pyInt 1, suitable := PyVal.pyBool true }
    (load_data_to_db (FileRead.parsed { header := ["公司名称"], rows := [["Acme"]] })
      emptyDB (fun _ => false)).2).2

/-- A successful match returns a stripped header that is case-insensitively
equal to the canonical name. -/
theorem findKey_some {cols : List String} {canon k : String}
    (h : findKey cols canon = some k) : k ∈ cols ∧ strLower k = strLower canon := by
  unfold findKey at h
  split at h
  · next hmem =>
    cases h
    exact ⟨hmem, rfl⟩
  · next hmem =>
    refine ⟨List.mem_of_find?_eq_some h, ?_⟩
    have hp := List.find?_some h
    simpa using hp

/-- A first-match association lookup only returns pairs of the list. -/
theorem assocLookup_mem : ∀ {l : List (String × String)} {key v : String},
    assocLookup l key = some v → (key, v) ∈ l := by
  intro l
  induction l with
  | nil => intro key v h; simp [assocLookup] at h
  | cons p rest ih =>
    intro key v h
    obtain ⟨k0, v0⟩ := p
    simp only [assocLookup] at h
    split at h
    · next hk =>
      cases h
      have : k0 = key := by simpa using hk
      subst this
      exact List.mem_cons_self _ _
    · exact List.mem_cons_of_mem _ (ih h)

/-- Every entry of the `mapped_columns` dictionary comes from a canonical
mapping entry whose match produced its key. -/
theorem mem_mappedAux {M : List (String × String)} {cols : List String} {k v : String}
    (h : (k, v) ∈ mappedAux M cols) :
    ∃ c, (c, v) ∈ M ∧ findKey cols c = some k := by
  rw [mappedAux, List.mem_filterMap] at h
  obtain ⟨⟨c, d⟩, hcd, hmap⟩ := h
  rw [Option.map_eq_some'] at hmap
  obtain ⟨k0, hk0, hpair⟩ := hmap
  cases hpair
  exact ⟨c, hcd, hk0⟩

/-- In a pair list whose second components are pairwise distinct, a second
component determines the pair. -/
theorem snd_nodup_eq : ∀ {M : List (String × String)},
    (M.map Prod.snd).Nodup → ∀ {c c' v : String}, (c, v) ∈ M → (c', v) ∈ M → c = c' := by
  intro M
  induction M with
  | nil => intro _ c c' v h; simp at h
  | cons p rest ih =>
    intro hnd c c' v h h'
    obtain ⟨k0, v0⟩ := p
    rw [List.map_cons, List.nodup_cons] at hnd
    rcases List.mem_cons.1 h with h1 | h1 <;> rcases List.mem_cons.1 h' with h2 | h2
    · cases h1; cases h2; rfl
    · cases h1
      exact absurd (List.mem_map_of_mem Prod.snd h2) hnd.1
    · cases h2
      exact absurd (List.mem_map_of_mem Prod.snd h1) hnd.1
    · exact ih hnd.2 h1 h2

/-- Looking a match key up in the `mapped_columns` dictionary returns the
matched canonical entry's internal field, provided the canonical names are
pairwise distinct case-insensitively (true of the program's fixed mapping). -/
theorem assocLookup_mappedAux : ∀ {M : List (String × String)},
    (M.map (fun p => strLower p.1)).Nodup →
    ∀ {cols : List String} {canon dbCol k : String}, (canon, dbCol) ∈ M →
      findKey cols canon = some k →
      assocLookup (mappedAux M cols) k = some dbCol := by
  intro M
  induction M with
  | nil => intro _ cols canon dbCol k h; simp at h
  | cons p rest ih =>
    intro hnd cols canon dbCol k hmem hfind
    obtain ⟨c, d⟩ := p
    rw [List.map_cons, List.nodup_cons] at hnd
    rcases List.mem_cons.1 hmem with h1 | h1
    · cases h1
      simp only [mappedAux, List.filterMap_cons, hfind, Option.map_some']
      simp [assocLookup]
    · cases hfc : findKey cols c with
      | none =>
        simp only [mappedAux, List.filterMap_cons, hfc, Option.map_none']
        exact ih hnd.2 h1 hfind
      | some k' =>
        simp only [mappedAux, List.filterMap_cons, hfc, Option.map_some']
        have hk' : k' ≠ k := by
          intro hkk
          subst hkk
          have e1 := (findKey_some hfc).2
          have e2 := (findKey_some hfind).2
          have hcl : strLower c = strLower canon := e1.symm.trans e2
          exact hnd.1 (hcl ▸ List.mem_map_of_mem (fun p => strLower p.1) h1)
        simp only [assocLookup, beq_eq_false_iff_ne.2 hk', if_false]
        exact ih hnd.2 h1 hfind

/-- Looking up an absent column returns the default. -/
theorem rowGet_not_mem : ∀ {hdr : List String} (cells : List String) {col : String}
    (dflt : String), col ∉ hdr → rowGet hdr cells col dflt = dflt := by
  intro hdr
  induction hdr with
  | nil => intro cells col dflt _; rfl
  | cons h hs ih =>
    intro cells col dflt hmem
    have hne : h ≠ col := fun e => hmem (e ▸ List.mem_cons_self _ _)
    simp only [rowGet, beq_eq_false_iff_ne.2 hne, if_false]
    exact ih _ _ (fun hc => hmem (List.mem_cons_of_mem _ hc))

/-- The insertion tuple's field named by a canonical mapping entry is exactly
the `row.get` of that internal name with its per-field default. -/
theorem fieldGet_buildInsert {canon dbCol : String}
    (hmem : (canon, dbCol) ∈ columnMapping) (hdr cells : List String) (idx : Nat) :
    fieldGet (buildInsert hdr cells idx) dbCol = rowGet hdr cells dbCol (defaultFor dbCol idx) := by
  simp only [columnMapping, List.mem_cons, List.not_mem_nil, or_false, Prod.mk.injEq] at hmem
  rcases hmem with ⟨h1, h2⟩ | ⟨h1, h2⟩ | ⟨h1, h2⟩ | ⟨h1, h2⟩ | ⟨h1, h2⟩ | ⟨h1, h2⟩ | ⟨h1, h2⟩ |
    ⟨h1, h2⟩ | ⟨h1, h2⟩ | ⟨h1, h2⟩ | ⟨h1, h2⟩ | ⟨h1, h2⟩ | ⟨h1, h2⟩ | ⟨h1, h2⟩ <;> subst h2 <;> rfl

/-- Unfolding the row loop one step. -/
theorem processRows_cons_eq (hdr cells : List String) (rest : List (List String))
    (idx : Nat) (db : DB) (errs : Nat) (fails : Nat → Bool) :
    processRows hdr (cells :: rest) idx db errs fails =
      if fails idx then processRows hdr rest (idx + 1) db (errs + 1) fails
      else processRows hdr rest (idx + 1) (insertRow db (buildInsert hdr cells idx)) errs fails :=
  rfl

/-- Unfolding the row loop at a failing row. -/
theorem processRows_cons_true (hdr cells : List String) (rest : List (List String))
    (idx : Nat) (db : DB) (errs : Nat) (fails : Nat → Bool) (hf : fails idx = true) :
    processRows hdr (cells :: rest) idx db errs fails =
      processRows hdr rest (idx + 1) db (errs + 1) fails := by
  rw [processRows_cons_eq, if_pos hf]

/-- Unfolding the row loop at a succeeding row. -/
theorem processRows_cons_false (hdr cells : List String) (rest : List (List String))
    (idx : Nat) (db : DB) (errs : Nat) (fails : Nat → Bool) (hf : fails idx = false) :
    processRows hdr (cells :: rest) idx db errs fails =
      processRows hdr rest (idx + 1) (insertRow db (buildInsert hdr cells idx)) errs fails := by
  rw [processRows_cons_eq, if_neg (by simp [hf])]

/-- The final `error_count` of the row loop counts exactly the failing row
positions. -/
theorem processRows_errs (hdr : List String) : ∀ (rows : List (List String)) (idx : Nat)
    (db : DB) (errs : Nat) (fails : Nat → Bool),
    (processRows hdr rows idx db errs fails).2 = errs + (List.range' idx rows.length).countP fails := by
  intro rows
  induction rows with
  | nil => intro idx db errs fails; simp [processRows]
  | cons cells rest ih =>
    intro idx db errs fails
    rw [List.length_cons, List.range'_succ, List.countP_cons]
    cases hf : fails idx with
    | true =>
      rw [processRows_cons_true hdr cells rest idx db errs fails hf, ih, if_pos rfl]
      omega
    | false =>
      rw [processRows_cons_false hdr cells rest idx db errs fails hf, ih,
        if_neg (by exact Bool.false_ne_true)]
      omega

/-- When no insertion fails, the row loop appends exactly the derived rows,
advances the id counter by the row count and reports zero errors. -/
theorem processRows_noFail (hdr : List String) : ∀ (rows : List (List String)) (idx : Nat)
    (db : DB) (errs : Nat) (fails : Nat → Bool), (∀ i, fails i = false) →
    processRows hdr rows idx db errs fails =
      ({ rows := db.rows ++ importedRows hdr rows idx db.nextId,
         nextId := db.nextId + rows.length }, errs) := by
  intro rows
  induction rows with
  | nil => intro idx db errs fails _; simp [processRows, importedRows]
  | cons cells rest ih =>
    intro idx db errs fails hf
    rw [processRows_cons_false hdr cells rest idx db errs fails (hf idx),
      ih (idx + 1) (insertRow db (buildInsert hdr cells idx)) errs fails hf]
    simp only [insertRow, importedRows, List.length_cons, Prod.mk.injEq, DB.mk.injEq]
    refine ⟨⟨?_, ?_⟩, trivial⟩
    · simp [List.append_assoc]
    · omega

/-- Every row inserted by the loop keeps its id below the final counter. -/
theorem processRows_id_bound (hdr : List String) : ∀ (rows : List (List String)) (idx : Nat)
    (db : DB) (errs : Nat) (fails : Nat → Bool),
    (∀ p ∈ db.rows, p.id < db.nextId) →
    ∀ p ∈ (processRows hdr rows idx db errs fails).1.rows,
      p.id < (processRows hdr rows idx db errs fails).1.nextId := by
  intro rows
  induction rows with
  | nil => intro idx db errs fails hinv p hp; exact hinv p hp
  | cons cells rest ih =>
    intro idx db errs fails hinv
    cases hf : fails idx with
    | true =>
      rw [processRows_cons_true hdr cells rest idx db errs fails hf]
      exact ih (idx + 1) db (errs + 1) fails hinv
    | false =>
      rw [processRows_cons_false hdr cells rest idx db errs fails hf]
      refine ih (idx + 1) _ errs fails ?_
      intro p hp
      rcases List.mem_append.1 hp with h | h
      · exact Nat.lt_succ_of_lt (hinv p h)
      · rcases List.mem_singleton.1 h with rfl
        exact Nat.lt_succ_self _

/-- Derived rows carry ids at or above the starting id. -/
theorem importedRows_id_ge (hdr : List String) : ∀ (rows : List (List String)) (idx sid : Nat)
    (p : Posting), p ∈ importedRows hdr rows idx sid → sid ≤ p.id := by
  intro rows
  induction rows with
  | nil => intro idx sid p h; simp [importedRows] at h
  | cons cells rest ih =>
    intro idx sid p h
    rcases List.mem_cons.1 h with h | h
    · subst h; exact Nat.le_refl _
    · exact Nat.le_of_succ_le (ih (idx + 1) (sid + 1) p h)

/-- On a parsed sheet, the import truncates the table and runs the row loop
from an empty row list with the surviving AUTOINCREMENT counter. -/
theorem load_parsed_db (s : Sheet) (db : DB) (fails : Nat → Bool) :
    (load_data_to_db (FileRead.parsed s) db fails).2 =
      (processRows (renamedHeader s.header) s.rows 0 { rows := [], nextId := db.nextId } 0 fails).1 := by
  simp only [load_data_to_db]
  split <;> rfl

/-- The source's filter clause accepts a posting exactly when the amended
claim's constraint holds: an absent, empty or `"all"` parameter is free and
any other value forces field equality. -/
theorem fieldPass_iff (v : Option String) (field : String) :
    fieldPass v field = true ↔ amendedConstraint v field := by
  cases v with
  | none => simp [fieldPass, amendedConstraint]
  | some s =>
    simp only [fieldPass, amendedConstraint]
    split
    · next hb =>
      rw [Bool.and_eq_true, bne_iff_ne, bne_iff_ne] at hb
      constructor
      · intro h t ht _ _
        cases ht
        exact eq_of_beq h
      · intro h
        exact beq_iff_eq.2 (h s rfl hb.1 hb.2)
    · next hb =>
      rw [Bool.and_eq_true, bne_iff_ne, bne_iff_ne] at hb
      constructor
      · intro _ t ht h1 h2
        cases ht
        exact absurd ⟨h1, h2⟩ hb
      · intro _; rfl

/-- Healing skips a column listed in the `PRAGMA table_info` snapshot. -/
theorem addMissing_present {E : List String} {c : String × String} (t : Table)
    (h : E.contains c.1 = true) : addMissing E t c = t := by
  unfold addMissing
  rw [if_pos h]

/-- Healing leaves the table unchanged when the missing column's ALTER is
rejected by SQLite (non-constant default). -/
theorem addMissing_nonconst {E : List String} {c : String × String} (t : Table)
    (h : E.contains c.1 = false) (h2 : nonConstDefault c.2 = true) :
    addMissing E t c = t := by
  unfold addMissing
  rw [if_neg (by rw [h]; exact Bool.false_ne_true), if_pos h2]

/-- Healing adds a missing column whose ALTER succeeds. -/
theorem addMissing_add {E : List String} {c : String × String} (t : Table)
    (h : E.contains c.1 = false) (h2 : nonConstDefault c.2 = false) :
    addMissing E t c = addColumn t c := by
  unfold addMissing
  rw [if_neg (by rw [h]; exact Bool.false_ne_true),
    if_neg (by rw [h2]; exact Bool.false_ne_true)]

/-- A healing pass over columns that are all present or all unaddable leaves
the table unchanged. -/
theorem foldl_addMissing_skip (E : List String) : ∀ (L : List (String × String)) (t : Table),
    (∀ c ∈ L, E.contains c.1 = true ∨ nonConstDefault c.2 = true) →
    L.foldl (addMissing E) t = t := by
  intro L
  induction L with
  | nil => intro t _; rfl
  | cons c rest ih =>
    intro t h
    have hc : addMissing E t c = t := by
      rcases h c (List.mem_cons_self _ _) with h1 | h1
      · exact addMissing_present t h1
      · cases hE : E.contains c.1 with
        | true => exact addMissing_present t hE
        | false => exact addMissing_nonconst t hE h1
    rw [List.foldl_cons, hc]
    exact ih t (fun c' hc' => h c' (List.mem_cons_of_mem _ hc'))

/-- Column effect of the healing pass: exactly the absent, constant-default
columns are appended, in order, with their declared types. -/
theorem foldl_addMissing_cols (E : List String) : ∀ (L : List (String × String)) (t : Table),
    (L.foldl (addMissing E) t).cols =
      t.cols ++ L.filter (fun c => !E.contains c.1 && !nonConstDefault c.2) := by
  intro L
  induction L with
  | nil => intro t; simp
  | cons c rest ih =>
    intro t
    rw [List.foldl_cons, List.filter_cons]
    cases hE : E.contains c.1 with
    | true =>
      rw [addMissing_present t hE]
      simp only [hE, Bool.not_true, Bool.false_and, if_false]
      exact ih t
    | false =>
      cases hN : nonConstDefault c.2 with
      | true =>
        rw [addMissing_nonconst t hE hN]
        simp only [hE, hN, Bool.not_true, Bool.not_false, Bool.and_false, if_false]
        exact ih t
      | false =>
        rw [addMissing_add t hE hN]
        simp only [hE, hN, Bool.not_false, Bool.and_self, if_true]
        rw [ih (addColumn t c)]
        simp [addColumn, List.append_assoc]

/-- Row effect of the healing pass: every existing row survives, extended by
the defaults of the columns actually added. -/
theorem foldl_addMissing_rows (E : List String) : ∀ (L : List (String × String)) (t : Table),
    (L.foldl (addMissing E) t).rows =
      t.rows.map (fun r => r ++ (L.filter
        (fun c => !E.contains c.1 && !nonConstDefault c.2)).map (fun c => defaultCell c.2)) := by
  intro L
  induction L with
  | nil => intro t; simp
  | cons c rest ih =>
    intro t
    rw [List.foldl_cons, List.filter_cons]
    cases hE : E.contains c.1 with
    | true =>
      rw [addMissing_present t hE]
      simp only [hE, Bool.not_true, Bool.false_and, if_false]
      exact ih t
    | false =>
      cases hN : nonConstDefault c.2 with
      | true =>
        rw [addMissing_nonconst t hE hN]
        simp only [hE, hN, Bool.not_true, Bool.and_false, if_false]
        exact ih t
      | false =>
        rw [addMissing_add t hE hN]
        simp only [hE, hN, Bool.not_false, Bool.and_self, if_true]
        rw [ih (addColumn t c)]
        simp only [addColumn, List.map_map, List.map_cons]
        congr 1
        funext r
        simp [List.append_assoc]

/-- The row loop preserves the suitability invariant (new rows enter with
marker 0). -/
theorem suitOK_processRows (hdr : List String) : ∀ (rows : List (List String)) (idx : Nat)
    (db : DB) (errs : Nat) (fails : Nat → Bool),
    suitOK db = true → suitOK (processRows hdr rows idx db errs fails).1 = true := by
  intro rows
  induction rows with
  | nil => intro idx db errs fails h; exact h
  | cons cells rest ih =>
    intro idx db errs fails h
    cases hf : fails idx with
    | true =>
      rw [processRows_cons_true hdr cells rest idx db errs fails hf]
      exact ih (idx + 1) db (errs + 1) fails h
    | false =>
      rw [processRows_cons_false hdr cells rest idx db errs fails hf]
      refine ih (idx + 1) _ errs fails ?_
      simp only [suitOK, insertRow, List.all_append] at h ⊢
      simp [h]

/-- Claim C7: for every spreadsheet row being imported, each field of the
insertion tuple defaults to the empty string when its column is absent from
the (renamed) header, except `serial_number`, which defaults to the 1-based
index of the row (as a string) when its column is absent. -/
theorem c7_insert_defaults (hdr cells : List String) (idx : Nat) :
    ("serial_number" ∉ hdr → (buildInsert hdr cells idx).serial_number = toString (idx + 1)) ∧
    ("company_name" ∉ hdr → (buildInsert hdr cells idx).company_name = "") ∧
    ("batch" ∉ hdr → (buildInsert hdr cells idx).batch = "") ∧
    ("company_type" ∉ hdr → (buildInsert hdr cells idx).company_type = "") ∧
    ("industry" ∉ hdr → (buildInsert hdr cells idx).industry = "") ∧
    ("recruitment_target" ∉ hdr → (buildInsert hdr cells idx).recruitment_target = "") ∧
    ("positions" ∉ hdr → (buildInsert hdr cells idx).positions = "") ∧
    ("application_status" ∉ hdr → (buildInsert hdr cells idx).application_status = "") ∧
    ("location" ∉ hdr → (buildInsert hdr cells idx).location = "") ∧
    ("update_time" ∉ hdr → (buildInsert hdr cells idx).update_time = "") ∧
    ("deadline" ∉ hdr → (buildInsert hdr cells idx).deadline = "") ∧
    ("official_announcement" ∉ hdr → (buildInsert hdr cells idx).official_announcement = "") ∧
    ("application_method" ∉ hdr → (buildInsert hdr cells idx).application_method = "") ∧
    ("referral_code" ∉ hdr → (buildInsert hdr cells idx).referral_code = "") :=
  ⟨fun h => rowGet_not_mem cells _ h, fun h => rowGet_not_mem cells _ h,
   fun h => rowGet_not_mem cells _ h, fun h => rowGet_not_mem cells _ h,
   fun h => rowGet_not_mem cells _ h, fun h => rowGet_not_mem cells _ h,
   fun h => rowGet_not_mem cells _ h, fun h => rowGet_not_mem cells _ h,
   fun h => rowGet_not_mem cells _ h, fun h => rowGet_not_mem cells _ h,
   fun h => rowGet_not_mem cells _ h, fun h => rowGet_not_mem cells _ h,
   fun h => rowGet_not_mem cells _ h, fun h => rowGet_not_mem cells _ h⟩

/-- Witness for C7 at the empty header: every field takes its default. -/
theorem c7_insert_defaults_witness :
    (buildInsert [] [] 0).serial_number = toString (0 + 1) ∧
    (buildInsert [] [] 0).company_name = "" ∧
    (buildInsert [] [] 0).batch = "" ∧
    (buildInsert [] [] 0).company_type = "" ∧
    (buildInsert [] [] 0).industry = "" ∧
    (buildInsert [] [] 0).recruitment_target = "" ∧
    (buildInsert [] [] 0).positions = "" ∧
    (buildInsert [] [] 0).application_status = "" ∧
    (buildInsert [] [] 0).location = "" ∧
    (buildInsert [] [] 0).update_time = "" ∧
    (buildInsert [] [] 0).deadline = "" ∧
    (buildInsert [] [] 0).official_announcement = "" ∧
    (buildInsert [] [] 0).application_method = "" ∧
    (buildInsert [] [] 0).referral_code = "" :=
  ⟨(c7_insert_defaults [] [] 0).1 (by decide),
   (c7_insert_defaults [] [] 0).2.1 (by decide),
   (c7_insert_defaults [] [] 0).2.2.1 (by decide),
   (c7_insert_defaults [] [] 0).2.2.2.1 (by decide),
   (c7_insert_defaults [] [] 0).2.2.2.2.1 (by decide),
   (c7_insert_defaults [] [] 0).2.2.2.2.2.1 (by decide),
   (c7_insert_defaults [] [] 0).2.2.2.2.2.2.1 (by decide),
   (c7_insert_defaults [] [] 0).2.2.2.2.2.2.2.1 (by decide),
   (c7_insert_defaults [] [] 0).2.2.2.2.2.2.2.2.1 (by decide),
   (c7_insert_defaults [] [] 0).2.2.2.2.2.2.2.2.2.1 (by decide),
   (c7_insert_defaults [] [] 0).2.2.2.2.2.2.2.2.2.2.1 (by decide),
   (c7_insert_defaults [] [] 0).2.2.2.2.2.2.2.2.2.2.2.1 (by decide),
   (c7_insert_defaults [] [] 0).2.2.2.2.2.2.2.2.2.2.2.2.1 (by decide),
   (c7_insert_defaults [] [] 0).2.2.2.2.2.2.2.2.2.2.2.2.2 (by decide)⟩

/-- Claim C10: `api_mark` rejects every falsy id value, not only absent/null —
a request whose id is the number 0 or the empty string receives the
missing-id error and leaves the store unchanged, even though such an id is a
present, non-null value. -/
theorem c10_falsy_id_rejected (suitable : PyVal) (db : DB) :
    api_mark { id := PyVal.pyInt 0, suitable := suitable } db = (("error", "缺少公司ID"), db) ∧
    api_mark { id := PyVal.pyStr "", suitable := suitable } db = (("error", "缺少公司ID"), db) ∧
    PyVal.pyInt 0 ≠ PyVal.pyNone ∧ PyVal.pyStr "" ≠ PyVal.pyNone :=
  ⟨rfl, rfl, by decide, by decide⟩

/-- Counterexample to claim C5 as stated: the id value 0 is present and
non-null, so the claim demands the update path and a success report, but the
code answers with the missing-id error and leaves the store unchanged. -/
theorem c5_counterexample :
    (api_mark { id := PyVal.pyInt 0, suitable := PyVal.pyBool true } emptyDB).1.1 = "error" ∧
    (api_mark { id := PyVal.pyInt 0, suitable := PyVal.pyBool true } emptyDB).2 = emptyDB ∧
    PyVal.pyInt 0 ≠ PyVal.pyNone := by
  refine ⟨rfl, rfl, by decide⟩

/-- Claim C5 (amended): `api_mark` fails with the missing-id error and leaves
the store unchanged whenever the request id is falsy (absent/null, and also 0
or ""); otherwise it sets the suitability of every posting with that id to 1
when `suitable` is truthy and to 2 when it is falsy, and reports success even
when no stored row has that id. -/
theorem c5_mark_amended (req : MarkRequest) (db : DB) :
    (req.id.truthy = false → api_mark req db = (("error", "缺少公司ID"), db)) ∧
    (req.id.truthy = true →
      (api_mark req db).1 = ("success", "标记成功") ∧
      (api_mark req db).2.rows = db.rows.map (fun p =>
        if idMatches req.id p.id then
          { p with is_suitable := if req.suitable.truthy then (1 : Int) else 2 }
        else p) ∧
      (api_mark req db).2.nextId = db.nextId) := by
  constructor
  · intro h
    simp [api_mark, h]
  · intro h
    simp [api_mark, h]

/-- Witness for C5 (amended): marking id 5 suitable in a store holding an
unmarked posting with id 5 succeeds and sets its marker to 1. -/
theorem c5_mark_amended_witness :
    (api_mark { id := PyVal.pyInt 5, suitable := PyVal.pyBool true } c5DB).1 =
      ("success", "标记成功") ∧
    (api_mark { id := PyVal.pyInt 5, suitable := PyVal.pyBool true } c5DB).2.rows =
      c5DB.rows.map (fun p =>
        if idMatches (PyVal.pyInt 5) p.id then { p with is_suitable := (1 : Int) } else p) ∧
    (api_mark { id := PyVal.pyInt 5, suitable := PyVal.pyBool true } c5DB).2.nextId =
      c5DB.nextId :=
  (c5_mark_amended { id := PyVal.pyInt 5, suitable := PyVal.pyBool true } c5DB).2 rfl

/-- Counterexample to claim C4 as stated: with a present empty-string
`industry` parameter the claim keeps only postings whose industry is "",
but the code (whose guard `if industry and industry != 'all'` treats "" as
falsy) returns the posting with industry "x". -/
theorem c4_counterexample :
    c4Posting ∈ api_companies c4Filters c4DB ∧
    ¬ claimConstraint (some "") c4Posting.industry := by
  constructor
  · decide
  · intro h
    exact absurd (h "" rfl (by decide)) (by decide)

/-- Claim C4 (amended): `api_companies` returns exactly the postings
satisfying the conjunction of the equality predicates for those parameters
that are present, non-empty and not equal to the sentinel "all" (an absent,
empty or "all" parameter imposes no constraint), ordered by id ascending. -/
theorem c4_filters_amended (f : Filters) (db : DB)
    (hsort : db.rows.Pairwise (fun a b => a.id < b.id)) (p : Posting) :
    (api_companies f db).Pairwise (fun a b => a.id < b.id) ∧
    (p ∈ api_companies f db ↔
      p ∈ db.rows ∧ amendedConstraint f.industry p.industry ∧
      amendedConstraint f.company_type p.company_type ∧
      amendedConstraint f.location p.location ∧
      amendedConstraint f.qiyexing p.recruitment_target ∧
      amendedConstraint f.jie p.deadline) := by
  constructor
  · exact hsort.sublist (List.filter_sublist _)
  · rw [api_companies, List.mem_filter]
    simp only [Bool.and_eq_true, fieldPass_iff]
    tauto

/-- Witness for C4 (amended) at a concrete store and filter set. -/
theorem c4_filters_amended_witness :
    (api_companies c4Filters c4DB).Pairwise (fun a b => a.id < b.id) ∧
    (c4Posting ∈ api_companies c4Filters c4DB ↔
      c4Posting ∈ c4DB.rows ∧ amendedConstraint c4Filters.industry c4Posting.industry ∧
      amendedConstraint c4Filters.company_type c4Posting.company_type ∧
      amendedConstraint c4Filters.location c4Posting.location ∧
      amendedConstraint c4Filters.qiyexing c4Posting.recruitment_target ∧
      amendedConstraint c4Filters.jie c4Posting.deadline) :=
  c4_filters_amended c4Filters c4DB (by decide) c4Posting

/-- Counterexample to claim C1 as stated: for the header list `[" 公司名称"]`
the canonical 公司名称 matches (exact after stripping), yet the matched column
is not renamed — the rename keys come from the stripped headers while the
rename runs on the raw headers — so the imported row has company_name ""
instead of the cell value; and the unmatched serial_number column yields the
1-based row index "1", not the empty string the claim asserts for every
unmatched canonical field. -/
theorem c1_counterexample :
    findKey (c1Sheet.header.map strStrip) "公司名称" = some "公司名称" ∧
    "company_name" ∉ renamedHeader c1Sheet.header ∧
    (load_data_to_db (FileRead.parsed c1Sheet) emptyDB (fun _ => false)).2.rows.map
      (fun p => (p.serial_number, p.company_name)) = [("1", "")] := by
  refine ⟨by decide, by decide, by decide⟩

/-- Claim C1 (amended): the importer matches a canonical header first by
exact match after stripping, then case-insensitively; the matched column is
renamed to the internal field name exactly when the match key is itself a raw
header (a matched header carrying surrounding whitespace is not renamed and
behaves as absent); a canonical field whose match is missing — or whose match
key is not a raw header — contributes its default to every imported row: the
empty string, except serial_number, which gets the 1-based row index.  The
hypothesis `dbCol ∉ hdr` rules out spreadsheets that already use internal
field names as raw headers, which would feed the field directly. -/
theorem c1_header_matching_amended (hdr cells : List String) (idx : Nat) (canon dbCol : String)
    (hmem : (canon, dbCol) ∈ columnMapping) :
    (canon ∈ hdr.map strStrip → findKey (hdr.map strStrip) canon = some canon) ∧
    (canon ∉ hdr.map strStrip →
      findKey (hdr.map strStrip) canon =
        (hdr.map strStrip).find? (fun ec => strLower ec == strLower canon)) ∧
    (∀ k, findKey (hdr.map strStrip) canon = some k → k ∈ hdr →
      dbCol ∈ renamedHeader hdr) ∧
    (dbCol ∉ hdr →
      (findKey (hdr.map strStrip) canon = Option.none ∨
        ∃ k, findKey (hdr.map strStrip) canon = some k ∧ k ∉ hdr) →
      fieldGet (buildInsert (renamedHeader hdr) cells idx) dbCol = defaultFor dbCol idx) := by
  refine ⟨?_, ?_, ?_, ?_⟩
  · intro h
    simp only [findKey]
    rw [if_pos h]
  · intro h
    simp only [findKey]
    rw [if_neg h]
  · intro k hk hkraw
    have hlook : assocLookup (mappedColumns (hdr.map strStrip)) k = some dbCol :=
      assocLookup_mappedAux (by decide) hmem hk
    have hren : renameCol (mappedColumns (hdr.map strStrip)) k = dbCol := by
      simp [renameCol, hlook]
    rw [renamedHeader, ← hren]
    exact List.mem_map_of_mem _ hkraw
  · intro hraw hcase
    have hnot : dbCol ∉ renamedHeader hdr := by
      intro hcontra
      rw [renamedHeader] at hcontra
      obtain ⟨h, hh, hren⟩ := List.mem_map.1 hcontra
      cases hal : assocLookup (mappedColumns (hdr.map strStrip)) h with
      | none =>
        rw [renameCol, hal] at hren
        exact hraw (hren ▸ hh)
      | some v =>
        have hv : v = dbCol := by
          rw [renameCol, hal] at hren
          exact hren
        subst hv
        have hpair := assocLookup_mem hal
        obtain ⟨c, hcmem, hcfind⟩ := mem_mappedAux hpair
        have hcc : c = canon := snd_nodup_eq (by decide) hcmem hmem
        subst hcc
        rcases hcase with hnone | ⟨k, hk, hknot⟩
        · rw [hcfind] at hnone
          exact Option.noConfusion hnone
        · rw [hcfind] at hk
          cases hk
          exact hknot hh
    rw [fieldGet_buildInsert hmem]
    exact rowGet_not_mem cells _ hnot

/-- Witness for C1 (amended): the whitespace-carrying matched header of
`c1Sheet` leaves company_name at its default. -/
theorem c1_header_matching_amended_witness :
    fieldGet (buildInsert (renamedHeader c1Sheet.header) ["Acme"] 0) "company_name" =
      defaultFor "company_name" 0 :=
  (c1_header_matching_amended c1Sheet.header ["Acme"] 0 "公司名称" "company_name"
      (by decide)).2.2.2 (by decide)
    (Or.inr ⟨"公司名称", by decide, by decide⟩)

/-- Claim C2: importing spreadsheet A and then importing spreadsheet B (with
all row insertions of B succeeding) leaves the store containing exactly the
rows derived from B — with ids continuing from the surviving AUTOINCREMENT
counter — and none of the rows derived from A. -/
theorem c2_reimport_replaces (A B : Sheet) (db : DB) (failsA failsB : Nat → Bool)
    (hB : ∀ i, failsB i = false) :
    (load_data_to_db (FileRead.parsed B)
        (load_data_to_db (FileRead.parsed A) db failsA).2 failsB).2.rows =
      importedRows (renamedHeader B.header) B.rows 0
        (load_data_to_db (FileRead.parsed A) db failsA).2.nextId ∧
    ∀ p ∈ (load_data_to_db (FileRead.parsed B)
        (load_data_to_db (FileRead.parsed A) db failsA).2 failsB).2.rows,
      p ∉ (load_data_to_db (FileRead.parsed A) db failsA).2.rows := by
  have hrows : (load_data_to_db (FileRead.parsed B)
      (load_data_to_db (FileRead.parsed A) db failsA).2 failsB).2.rows =
        importedRows (renamedHeader B.header) B.rows 0
          (load_data_to_db (FileRead.parsed A) db failsA).2.nextId := by
    rw [load_parsed_db, processRows_noFail (renamedHeader B.header) B.rows 0 _ 0 failsB hB]
    simp
  refine ⟨hrows, ?_⟩
  intro p hp hp1
  have hge : (load_data_to_db (FileRead.parsed A) db failsA).2.nextId ≤ p.id :=
    importedRows_id_ge _ B.rows 0 _ p (hrows ▸ hp)
  have hlt : p.id < (load_data_to_db (FileRead.parsed A) db failsA).2.nextId := by
    rw [load_parsed_db] at hp1 ⊢
    exact processRows_id_bound (renamedHeader A.header) A.rows 0
      { rows := [], nextId := db.nextId } 0 failsA (by intro q hq; simp at hq) p hp1
  exact absurd (Nat.lt_of_lt_of_le hlt hge) (Nat.lt_irrefl _)

/-- Witness for C2 at two concrete spreadsheets. -/
theorem c2_reimport_replaces_witness :
    (load_data_to_db (FileRead.parsed c2SheetB)
        (load_data_to_db (FileRead.parsed c2SheetA) emptyDB (fun _ => false)).2
        (fun _ => false)).2.rows =
      importedRows (renamedHeader c2SheetB.header) c2SheetB.rows 0
        (load_data_to_db (FileRead.parsed c2SheetA) emptyDB (fun _ => false)).2.nextId :=
  (c2_reimport_replaces c2SheetA c2SheetB emptyDB (fun _ => false) (fun _ => false)
    (fun _ => rfl)).1

/-- Claim C3: `load_data_to_db` returns success=false exactly on a file-level
error (missing file or unparsable spreadsheet; the modelled procedure has no
other exceptions); otherwise it returns success=true with the all-imported
message when no row failed and the N-failed message (stating total and
failure counts) when some did. -/
theorem c3_result_contract (fr : FileRead) (db : DB) (fails : Nat → Bool) :
    ((load_data_to_db fr db fails).1.1 = true ↔ ∃ s, fr = FileRead.parsed s) ∧
    (∀ s, fr = FileRead.parsed s →
      (((List.range s.rows.length).countP fails = 0 →
          (load_data_to_db fr db fails).1.2 =
            "成功导入 " ++ toString s.rows.length ++ " 条数据") ∧
        (0 < (List.range s.rows.length).countP fails →
          (load_data_to_db fr db fails).1.2 =
            "导入完成，共 " ++ toString s.rows.length ++ " 条数据，其中 "
              ++ toString ((List.range s.rows.length).countP fails) ++ " 条数据导入失败"))) := by
  have herr : ∀ (s : Sheet),
      (processRows (renamedHeader s.header) s.rows 0
        { rows := [], nextId := db.nextId } 0 fails).2 =
          (List.range s.rows.length).countP fails := by
    intro s
    rw [processRows_errs, List.range_eq_range']
    omega
  cases fr with
  | missing p =>
    constructor
    · simp [load_data_to_db]
    · intro s hs
      exact absurd hs (by simp)
  | unparsable e =>
    constructor
    · simp [load_data_to_db]
    · intro s hs
      exact absurd hs (by simp)
  | parsed s0 =>
    constructor
    · constructor
      · intro _
        exact ⟨s0, rfl⟩
      · intro _
        simp only [load_data_to_db]
        split <;> rfl
    · intro s hs
      cases hs
      constructor
      · intro h0
        simp only [load_data_to_db]
        rw [herr s0, if_neg (by omega)]
      · intro hpos
        simp only [load_data_to_db]
        rw [herr s0, if_pos hpos]

/-- Witness for C3: a two-row sheet with its first row failing yields the
N-failed message. -/
theorem c3_result_contract_witness :
    (load_data_to_db (FileRead.parsed c3Sheet) emptyDB (fun i => i == 0)).1.2 =
      "导入完成，共 " ++ toString c3Sheet.rows.length ++ " 条数据，其中 "
        ++ toString ((List.range c3Sheet.rows.length).countP (fun i => i == 0))
        ++ " 条数据导入失败" :=
  ((c3_result_contract (FileRead.parsed c3Sheet) emptyDB (fun i => i == 0)).2 c3Sheet
    rfl).2 (by decide)

/-- Counterexample to claim C6 as stated: the export header has 12 of the 14
canonical fields, but the two omitted ones are 更新时间 (update_time) and
官方公告 (official_announcement) — not "update_time and created_at/id" as the
claim says (created_at and id are not among the 14 canonical spreadsheet
fields at all, so the claim's omission list would leave 13 columns and keep
官方公告). -/
theorem c6_counterexample :
    "官方公告" ∈ columnMapping.map Prod.fst ∧
    "官方公告" ∉ exportHeaders ∧
    "更新时间" ∉ exportHeaders ∧
    exportHeaders.length = 12 ∧
    (columnMapping.map Prod.fst).length = 14 := by decide

/-- Claim C6 (amended): with no suitable posting the export fails with the
nothing-to-export client error; otherwise, for N suitable postings, the
worksheet has exactly N+1 rows — the fixed header row, which is the canonical
14-field list minus 更新时间 and 官方公告 in canonical order, followed by one
data row per suitable posting in ascending id order. -/
theorem c6_export_amended (db : DB) :
    (suitableRows db = [] →
      api_export_suitable db = Except.error "没有合适的公司可导出") ∧
    (suitableRows db ≠ [] →
      api_export_suitable db = Except.ok (exportHeaders :: (suitableRows db).map exportRow) ∧
      (exportHeaders :: (suitableRows db).map exportRow).length = (suitableRows db).length + 1) ∧
    exportHeaders = (columnMapping.map Prod.fst).filter
      (fun h => h != "更新时间" && h != "官方公告") ∧
    (db.rows.Pairwise (fun a b => a.id < b.id) →
      (suitableRows db).Pairwise (fun a b => a.id < b.id)) := by
  refine ⟨?_, ?_, by decide, ?_⟩
  · intro h
    simp [api_export_suitable, h]
  · intro h
    constructor
    · cases hl : suitableRows db with
      | nil => exact absurd hl h
      | cons a l => simp [api_export_suitable, hl]
    · simp
  · intro hsort
    exact hsort.sublist (List.filter_sublist _)

/-- Witness for C6 (amended) at a store with one suitable posting. -/
theorem c6_export_amended_witness :
    api_export_suitable c6DB = Except.ok (exportHeaders :: (suitableRows c6DB).map exportRow) ∧
    (exportHeaders :: (suitableRows c6DB).map exportRow).length = (suitableRows c6DB).length + 1 :=
  (c6_export_amended c6DB).2.1 (by decide)

/-- Counterexample to claim C8 as stated: from a table holding every
canonical column except `created_at`, `init_db` does not add `created_at`
(SQLite rejects ALTER TABLE ADD COLUMN for its CURRENT_TIMESTAMP default; the
source catches and logs the error and moves on), so the N missing columns are
not all added. -/
theorem c8_counterexample :
    ("created_at", "TIMESTAMP DEFAULT CURRENT_TIMESTAMP") ∈ requiredColumns ∧
    "created_at" ∉ c8Table.cols.map Prod.fst ∧
    "created_at" ∉ (init_db (some c8Table)).cols.map Prod.fst := by decide

/-- Claim C8 (amended): `init_db` is idempotent — a second run is a no-op on
the schema; starting from an existing table it appends exactly those
canonical columns that are missing and have a constant default (the
`created_at` column, whose default is CURRENT_TIMESTAMP, cannot be added to
an existing table and is skipped), with their declared types, never dropping
or renaming a column; and every existing row is preserved, extended only by
the added columns' default values. -/
theorem c8_schema_amended :
    (∀ s : Option Table, init_db (some (init_db s)) = init_db s) ∧
    (∀ t : Table,
      (init_db (some t)).cols =
        t.cols ++ requiredColumns.filter
          (fun c => !(t.cols.map Prod.fst).contains c.1 && !nonConstDefault c.2)) ∧
    (∀ t : Table,
      (init_db (some t)).rows =
        t.rows.map (fun r => r ++ (requiredColumns.filter
          (fun c => !(t.cols.map Prod.fst).contains c.1 && !nonConstDefault c.2)).map
            (fun c => defaultCell c.2))) := by
  refine ⟨?_, ?_, ?_⟩
  · intro s
    cases s with
    | none =>
      show requiredColumns.foldl
        (addMissing ((init_db Option.none).cols.map Prod.fst)) (init_db Option.none) =
          init_db Option.none
      apply foldl_addMissing_skip
      intro c hc
      left
      apply List.elem_eq_true_of_mem
      show c.1 ∈ (init_db Option.none).cols.map Prod.fst
      simp only [init_db, List.map_cons]
      exact List.mem_cons_of_mem _ (List.mem_map_of_mem Prod.fst hc)
    | some t =>
      show requiredColumns.foldl
        (addMissing ((init_db (some t)).cols.map Prod.fst)) (init_db (some t)) =
          init_db (some t)
      apply foldl_addMissing_skip
      intro c hc
      cases hN : nonConstDefault c.2 with
      | true => right; rfl
      | false =>
        left
        apply List.elem_eq_true_of_mem
        show c.1 ∈ (init_db (some t)).cols.map Prod.fst
        rw [show (init_db (some t)).cols = t.cols ++ requiredColumns.filter
            (fun c => !(t.cols.map Prod.fst).contains c.1 && !nonConstDefault c.2) from
          foldl_addMissing_cols (t.cols.map Prod.fst) requiredColumns t]
        rw [List.map_append]
        cases hE : (t.cols.map Prod.fst).contains c.1 with
        | true =>
          exact List.mem_append_left _ (List.mem_of_elem_eq_true hE)
        | false =>
          apply List.mem_append_right
          apply List.mem_map_of_mem Prod.fst
          rw [List.mem_filter]
          refine ⟨hc, ?_⟩
          rw [hE, hN]
          rfl
  · intro t
    exact foldl_addMissing_cols (t.cols.map Prod.fst) requiredColumns t
  · intro t
    exact foldl_addMissing_rows (t.cols.map Prod.fst) requiredColumns t

/-- Claim C9: the suitability value of every stored posting is always in
{0, 1, 2} — rows are inserted with marker 0 and `api_mark` writes only 1
or 2 — so the invariant holds in every state reachable from the empty
store through imports and marks. -/
theorem c9_suitability_invariant {db : DB} (h : Reachable db) : suitOK db = true := by
  induction h with
  | start => rfl
  | @imprt fr fails db h ih =>
    cases fr with
    | missing p => exact ih
    | unparsable e => exact ih
    | parsed s =>
      rw [load_parsed_db]
      exact suitOK_processRows (renamedHeader s.header) s.rows 0 _ 0 fails rfl
  | @mark req db h ih =>
    cases ht : req.id.truthy with
    | false =>
      have heq : (api_mark req db).2 = db := by simp [api_mark, ht]
      rw [heq]
      exact ih
    | true =>
      have hrows : (api_mark req db).2.rows = db.rows.map (fun p =>
          if idMatches req.id p.id then
            { p with is_suitable := if req.suitable.truthy then (1 : Int) else 2 }
          else p) := by
        simp [api_mark, ht]
      rw [suitOK, hrows, List.all_eq_true]
      intro p hp
      obtain ⟨q, hq, rfl⟩ := List.mem_map.1 hp
      cases hm : idMatches req.id q.id with
      | true =>
        cases hs : req.suitable.truthy <;> simp [hs]
      | false =>
        simp only [Bool.false_eq_true, if_false]
        rw [suitOK, List.all_eq_true] at ih
        exact ih q hq

/-- Witness for C9 at a concrete reachable store (one import, one mark). -/
theorem c9_suitability_invariant_witness : suitOK c9DB = true :=
  c9_suitability_invariant (Reachable.mark _ (Reachable.imprt _ _ Reachable.start))

end Recruitment
